import Mathlib

/-!
Verification development for the django-cloudflare repository.

The development shallowly embeds the two core modules of the repository:

* `client.py` — `CloudflareClient`, a stateless mapper onto the provider's
  purge API.  Network I/O is abstracted as an explicit `TransportResult`
  (what `urlopen` produced) or as a function from the request that would be
  sent to the response; each operation returns the request it issued (if any)
  so that "no network call occurs" is a provable statement.
* `purge.py` — `PurgeService`, the purge coordinator: pending-URL
  accumulation, debounce timer, batching, dispatch.

Modelling conventions:

* Decoded JSON response dictionaries are modelled by `RespObj`, which records
  the fields the code reads with their `dict.get` defaults already applied
  (`success` defaults to `false`, `errors` to `[]`).
* Python's `threading.Timer` handle is modelled by an `Option Nat`
  generation counter: arming a timer stores a fresh generation, cancelling
  or consuming it clears/replaces the field.  Cancel-and-replace is visible
  as the stored handle changing.
* Python's `set` of pending URLs is modelled as a duplicate-free list kept
  in insertion order, together with an arbitrary enumeration function
  `enum` constrained only to produce a permutation of the stored elements:
  CPython's `list(set)` iteration order is hash-based and unspecified, so
  the drain order is a parameter of the model, not a fixed choice.
* Exceptions are modelled with `Except`; a Python `try/except` that
  swallows an exception becomes a `match` that maps the error to a normal
  result.
-/

/-- One provider error object `{code, message}` as decoded from JSON. -/
structure ErrObj where
  code : Int
  message : String
deriving DecidableEq

/-- A decoded JSON response dictionary, with the `dict.get` defaults the
code uses already applied: `success` via `.get ("success", False)`,
`errors` via `.get ("errors", [])`, and the `result.id` field (if any). -/
structure RespObj where
  success : Bool
  resultId : Option String
  errors : List ErrObj
deriving DecidableEq

/-- The `CloudflareAPIError` exception: message plus the decoded provider
error list (`self.errors = errors or []`). -/
structure CloudflareAPIError where
  message : String
  errors : List ErrObj
deriving DecidableEq

/-- Any exception `_make_request` can raise: `CloudflareAPIError`, or the
uncaught `json.JSONDecodeError` when a 2xx body fails to parse. -/
inductive PyError where
  | apiError (e : CloudflareAPIError)
  | jsonDecodeError (raw : String)
deriving DecidableEq

/-- A response body as read off the wire: either valid JSON (already
decoded into `RespObj`) or not valid JSON (the raw text). -/
inductive Body where
  | jsonBody (j : RespObj)
  | notJson (raw : String)
deriving DecidableEq

/-- What `urlopen` did for one request: returned a 2xx response with a
body, raised `HTTPError` carrying an error body, or raised `URLError`
with a reason. -/
inductive TransportResult where
  | response (body : Body)
  | httpError (body : Body)
  | urlError (reason : String)
deriving DecidableEq

/-- The JSON payload of a purge request, one of the four body shapes
`client.py` builds. -/
inductive Payload where
  | purgeEverythingBody
  | files (urls : List String)
  | tagList (ts : List String)
  | prefixList (ps : List String)
deriving DecidableEq

/-- An outgoing API request: method, endpoint (without base URL), body. -/
structure ApiRequest where
  method : String
  endpoint : String
  payload : Option Payload
deriving DecidableEq

namespace CloudflareClient

/-- The error message the code builds:
`"Cloudflare API error: " + ", ".join(err.get("message") for err in errors)`. -/
def errMsg (errors : List ErrObj) : String :=
  "Cloudflare API error: " ++ String.intercalate ", " (errors.map (fun e => e.message))

/-- Embedding of `CloudflareClient._make_request` (client.py lines 59-109),
given what the transport did.  Mirrors the source branch by branch:
a 2xx response is JSON-decoded and checked for `success`; an `HTTPError`
body is JSON-decoded and always raised as `CloudflareAPIError` (decoded
`errors` list when the body parses, empty list and the raw body in the
message otherwise); a `URLError` becomes `CloudflareAPIError` with an
empty error list; a 2xx body that is not JSON raises the uncaught
`json.JSONDecodeError`. -/
def _make_request (tr : TransportResult) : Except PyError RespObj :=
  match tr with
  | .response (.jsonBody j) =>
      if j.success then .ok j
      else .error (.apiError ⟨errMsg j.errors, j.errors⟩)
  | .response (.notJson raw) => .error (.jsonDecodeError raw)
  | .httpError (.jsonBody j) => .error (.apiError ⟨errMsg j.errors, j.errors⟩)
  | .httpError (.notJson raw) =>
      .error (.apiError ⟨"Cloudflare API error: " ++ raw, []⟩)
  | .urlError reason => .error (.apiError ⟨"Network error: " ++ reason, []⟩)

/-- Client configuration: the `CLOUDFLARE_ENABLED` flag and the zone id. -/
structure Config where
  enabled : Bool
  zoneId : String
deriving DecidableEq

/-- The synthetic success `{"success": True, "result": {"id": "disabled"}}`. -/
def disabledResp : RespObj := ⟨true, some "disabled", []⟩

/-- The synthetic success `{"success": True, "result": {"id": "empty"}}`. -/
def emptyResp : RespObj := ⟨true, some "empty", []⟩

/-- A network abstraction: the decoded outcome of performing a request.
The first component of each operation below is the request actually sent
(`none` when the operation short-circuits without network I/O). -/
def Net : Type := ApiRequest → Except PyError RespObj

/-- Embedding of `CloudflareClient.purge_everything` (client.py 111-129). -/
def purge_everything (cfg : Config) (net : Net) :
    Option ApiRequest × Except PyError RespObj :=
  if !cfg.enabled then (none, .ok disabledResp)
  else
    let req : ApiRequest :=
      ⟨"POST", "/zones/" ++ cfg.zoneId ++ "/purge_cache", some .purgeEverythingBody⟩
    (some req, net req)

/-- Embedding of `CloudflareClient.purge_urls` (client.py 131-156):
disabled short-circuit, empty short-circuit, otherwise the whole `urls`
list is sent as the `files` payload — there is no size check. -/
def purge_urls (cfg : Config) (net : Net) (urls : List String) :
    Option ApiRequest × Except PyError RespObj :=
  if !cfg.enabled then (none, .ok disabledResp)
  else if urls.isEmpty then (none, .ok emptyResp)
  else
    let req : ApiRequest :=
      ⟨"POST", "/zones/" ++ cfg.zoneId ++ "/purge_cache", some (.files urls)⟩
    (some req, net req)

/-- Embedding of `CloudflareClient.purge_tags` (client.py 158-185). -/
def purge_tags (cfg : Config) (net : Net) (tags : List String) :
    Option ApiRequest × Except PyError RespObj :=
  if !cfg.enabled then (none, .ok disabledResp)
  else if tags.isEmpty then (none, .ok emptyResp)
  else
    let req : ApiRequest :=
      ⟨"POST", "/zones/" ++ cfg.zoneId ++ "/purge_cache", some (.tagList tags)⟩
    (some req, net req)

/-- Embedding of `CloudflareClient.purge_prefixes` (client.py 187-214). -/
def purge_prefixes (cfg : Config) (net : Net) (prefixes : List String) :
    Option ApiRequest × Except PyError RespObj :=
  if !cfg.enabled then (none, .ok disabledResp)
  else if prefixes.isEmpty then (none, .ok emptyResp)
  else
    let req : ApiRequest :=
      ⟨"POST", "/zones/" ++ cfg.zoneId ++ "/purge_cache", some (.prefixList prefixes)⟩
    (some req, net req)

/-- Embedding of `CloudflareClient.verify_token` (client.py 216-227).
The source performs the request unconditionally: there is no
`cf_settings.is_enabled()` check in this method. -/
def verify_token (_cfg : Config) (net : Net) :
    Option ApiRequest × Except PyError RespObj :=
  let req : ApiRequest := ⟨"GET", "/user/tokens/verify", none⟩
  (some req, net req)

end CloudflareClient

namespace PurgeService

/-- Coordinator state: the pending-URL set and the debounce timer handle
(purge.py lines 32-35).  `pending` models the Python `set` as a
duplicate-free list that additionally remembers insertion order (ghost
information a real `set` does not expose); `timer` is the current
`threading.Timer` handle, modelled as a generation number; `nextGen` is
the ghost supply of fresh handles. -/
structure State where
  pending : List String
  timer : Option Nat
  nextGen : Nat
deriving DecidableEq

/-- The freshly initialised service: empty pending set, no timer. -/
def initState : State := ⟨[], none, 0⟩

/-- Add one URL to the pending list unless already present —
the effect of `set.update` on a single element, keeping insertion order. -/
def addUrl (acc : List String) (u : String) : List String :=
  if u ∈ acc then acc else acc ++ [u]

/-- `self._pending_urls.update(urls)`: fold `addUrl` over the new URLs. -/
def addUrls (p : List String) (urls : List String) : List String :=
  urls.foldl addUrl p

/-- The deduplicated union of a sequence of request batches, in first-added
order. -/
def dedupUnion (reqs : List (List String)) : List String :=
  addUrls [] reqs.flatten

/-- Embedding of `PurgeService._schedule_background_purge` (purge.py
112-134): under the lock, merge `urls` into the pending set, cancel any
outstanding timer, and arm a fresh one.  Cancellation-and-replacement is
modelled by overwriting `timer` with the fresh generation `nextGen`.
Note the source does this unconditionally, for an empty `urls` too. -/
def _schedule_background_purge (st : State) (urls : List String) : State :=
  { pending := addUrls st.pending urls
    timer := some st.nextGen
    nextGen := st.nextGen + 1 }

/-- Structural worker for `chunks`: the fuel argument only bounds the
number of slices taken (it is always instantiated with `l.length`, which
suffices whenever `0 < B`); structural recursion keeps the function
kernel-reducible. -/
def chunksF (B : Nat) : Nat → List String → List (List String)
  | _, [] => []
  | 0, _ :: _ => []
  | fuel + 1, x :: xs => (x :: xs).take B :: chunksF B fuel ((x :: xs).drop B)

/-- `range(0, len(urls), B)` slicing of `_do_purge_urls` (purge.py
101-102): consecutive chunks `urls[i : i+B]`.  For `B = 0` the source
raises `ValueError` out of `range`; the model returns `[]` there and
every theorem below assumes `0 < B`. -/
def chunks (B : Nat) (l : List String) : List (List String) :=
  if B = 0 then [] else chunksF B l.length l

/-- A client for one batch call: `self.client.purge_urls(batch)` either
returns a decoded response or raises `CloudflareAPIError`. -/
def BatchClient : Type := List String → Except CloudflareAPIError RespObj

/-- The loop body of `_do_purge_urls` over the precomputed chunk list:
call the client once per chunk in order, accumulate results, and stop at
the first `CloudflareAPIError`, re-raising it.  The first component is
the trace of client calls actually issued. -/
def runBatches (client : BatchClient) :
    List (List String) → List (List String) × Except CloudflareAPIError (List RespObj)
  | [] => ([], .ok [])
  | b :: bs =>
      match client b with
      | .error e => ([b], .error e)
      | .ok r =>
          let rest := runBatches client bs
          (b :: rest.1, rest.2.map (fun rs => r :: rs))

/-- Embedding of `PurgeService._do_purge_urls` (purge.py 87-110): split
`urls` into batches of `B` and purge each, failing fast on the first
client error; on success the source returns
`{"success": True, "results": results}`, modelled as `.ok results`. -/
def _do_purge_urls (client : BatchClient) (B : Nat) (urls : List String) :
    List (List String) × Except CloudflareAPIError (List RespObj) :=
  runBatches client (chunks B urls)

/-- An enumeration of the pending set, standing for `list(self._pending_urls)`.
CPython set iteration order is hash-based and unspecified, so the model
accepts any function that lists exactly the stored elements. -/
def enumValid (enum : List String → List String) : Prop :=
  ∀ l : List String, List.Perm (enum l) l

/-- Embedding of `PurgeService._execute_background_purge` (purge.py
136-148): under the lock, snapshot `list(self._pending_urls)`, clear the
set, drop the timer handle; then, outside the lock, if the snapshot is
non-empty run `_do_purge_urls` on it, catching `CloudflareAPIError`
(the error is logged, not re-raised, and not re-queued).  Returns the new
state, the list of drain-level dispatches performed (`[]` or one element:
the snapshot handed to `_do_purge_urls`), and the swallowed dispatch
outcome when a dispatch happened. -/
def _execute_background_purge (enum : List String → List String)
    (client : BatchClient) (B : Nat) (st : State) :
    State × List (List String) × Option (Except CloudflareAPIError (List RespObj)) :=
  let urls := enum st.pending
  let st2 : State := { pending := [], timer := none, nextGen := st.nextGen }
  if urls.isEmpty then (st2, [], none)
  else (st2, [urls], some (_do_purge_urls client B urls).2)

/-- Embedding of `PurgeService.purge_urls` (purge.py 65-85), with the
`background` argument already resolved against
`cf_settings.use_background_purge()`.  Background mode schedules and
returns `None` (no dispatch); synchronous mode runs `_do_purge_urls`
and returns its call trace and outcome, leaving the state untouched. -/
def purge_urls (background : Bool) (client : BatchClient) (B : Nat)
    (st : State) (urls : List String) :
    State × Option (List (List String) × Except CloudflareAPIError (List RespObj)) :=
  if background then (_schedule_background_purge st urls, none)
  else (st, some (_do_purge_urls client B urls))

/-- Process a sequence of background requests arriving within one debounce
window (each one runs `_schedule_background_purge`; none of them
dispatches anything). -/
def runRequests (st : State) : List (List String) → State
  | [] => st
  | u :: us => runRequests (_schedule_background_purge st u) us

/-- Timer-handle sanity: any armed handle was drawn from the generation
supply, so a fresh generation is always distinct from it. -/
def timerInv (st : State) : Prop :=
  ∀ g, st.timer = some g → g < st.nextGen

/-- Python `site_url.rstrip("/")`: remove every trailing slash. -/
def rstripSlash (s : String) : String :=
  String.mk ((s.toList.reverse.dropWhile (fun c => c = '/')).reverse)

/-- Embedding of `PurgeService._build_full_url` (purge.py 50-63), with the
`CLOUDFLARE_SITE_URL` setting passed explicitly: strip trailing slashes
from the site URL; if nothing is left, return the path unchanged,
otherwise concatenate. -/
def _build_full_url (siteUrl : String) (path : String) : String :=
  let s := rstripSlash siteUrl
  if s = "" then path else s ++ path

/-- The result of one resolver call on the fixed instance, as an `Except`:
`.error` means the Python call raised.  `none` at the outer `Option`
means the resolver is absent (`get_url_func` not supplied, or the
instance has no `get_absolute_url` attribute). -/
def ResolverResult (α : Type) : Type := Option (Except String α)

/-- The URL-assembly phase of `PurgeService.purge_model` (purge.py
167-187), with the per-instance resolver outcomes and the dependency
list for the instance's model identifier (the result of
`_get_url_dependencies`) passed explicitly.  Mirrors the source: a
supplied `get_url_func` is called outside any `try`, so its exception
propagates, and its URLs are extended verbatim (a single string is
wrapped into a one-element list by the source, so the model takes a
list); absent that, `get_absolute_url` is called inside
`try/except Exception` — a failure is logged and contributes no URL —
and its URL goes through `_build_full_url`; then every dependency path
goes through `_build_full_url`. -/
def purge_model_urls
    (getUrlFuncResult : ResolverResult (List String))
    (getAbsoluteUrlResult : ResolverResult String)
    (includeDependencies : Bool)
    (deps : List String) (siteUrl : String) :
    Except String (List String) :=
  let depUrls : List String :=
    if includeDependencies then deps.map (_build_full_url siteUrl) else []
  match getUrlFuncResult with
  | some (.error e) => .error e
  | some (.ok us) => .ok (us ++ depUrls)
  | none =>
      match getAbsoluteUrlResult with
      | some (.ok u) => .ok (_build_full_url siteUrl u :: depUrls)
      | some (.error _) => .ok depUrls
      | none => .ok depUrls

/-- Embedding of `PurgeService.purge_model` (purge.py 150-193), reduced to
what it hands on: `.ok none` when no URLs were collected (the source
logs and returns `None` without dispatching), `.ok (some urls)` when it
calls `self.purge_urls(urls)` with that list, and `.error e` when the
assembly phase raised. -/
def purge_model
    (getUrlFuncResult : ResolverResult (List String))
    (getAbsoluteUrlResult : ResolverResult String)
    (includeDependencies : Bool)
    (deps : List String) (siteUrl : String) :
    Except String (Option (List String)) :=
  match purge_model_urls getUrlFuncResult getAbsoluteUrlResult
      includeDependencies deps siteUrl with
  | .error e => .error e
  | .ok us => if us.isEmpty then .ok none else .ok (some us)

end PurgeService

namespace Signals

/-- Embedding of `signals._purge_instance` (signals.py 101-121): call
`purge_model` inside `try/except Exception`; every exception is logged
and swallowed, so the handler always returns normally (`.ok ()`). -/
def _purge_instance
    (getUrlFuncResult : PurgeService.ResolverResult (List String))
    (getAbsoluteUrlResult : PurgeService.ResolverResult String)
    (includeDependencies : Bool)
    (deps : List String) (siteUrl : String) :
    Except String Unit :=
  match PurgeService.purge_model getUrlFuncResult getAbsoluteUrlResult
      includeDependencies deps siteUrl with
  | .ok _ => .ok ()
  | .error _ => .ok ()

end Signals

/-- A batch client that always succeeds (a provider that accepts every
purge call). -/
def okClient : PurgeService.BatchClient := fun _ => .ok ⟨true, none, []⟩

/-- A batch client that always raises `CloudflareAPIError` (a simulated
transport error surfaced by the inner client). -/
def failClient : PurgeService.BatchClient := fun _ => .error ⟨"transport error", []⟩

/-- A network that answers every request with a live success response. -/
def liveNet : CloudflareClient.Net := fun _ => .ok ⟨true, some "live", []⟩

/-- Thirty-one distinct URLs — one more than the provider's documented
30-item per-request cap. -/
def urls31 : List String := (List.range 31).map (fun i => "https://e.com/p" ++ toString i)

namespace PurgeService

theorem mem_addUrl {acc : List String} {u x : String} :
    x ∈ addUrl acc u ↔ x ∈ acc ∨ x = u := by
  by_cases h : u ∈ acc
  · simp only [addUrl, if_pos h]
    exact ⟨Or.inl, fun hx => hx.elim id (fun he => he ▸ h)⟩
  · simp [addUrl, h]

theorem nodup_addUrl {acc : List String} {u : String} (h : acc.Nodup) :
    (addUrl acc u).Nodup := by
  by_cases hu : u ∈ acc
  · simp [addUrl, hu, h]
  · simp [addUrl, hu, List.nodup_append, h]

theorem mem_addUrls {p l : List String} {x : String} :
    x ∈ addUrls p l ↔ x ∈ p ∨ x ∈ l := by
  induction l generalizing p with
  | nil => simp [addUrls]
  | cons a as ih =>
      have : addUrls p (a :: as) = addUrls (addUrl p a) as := rfl
      rw [this, ih, mem_addUrl]
      simp [or_assoc]

theorem nodup_addUrls {p l : List String} (h : p.Nodup) :
    (addUrls p l).Nodup := by
  induction l generalizing p with
  | nil => simpa [addUrls]
  | cons a as ih =>
      have : addUrls p (a :: as) = addUrls (addUrl p a) as := rfl
      rw [this]
      exact ih (nodup_addUrl h)

theorem addUrls_append (p a b : List String) :
    addUrls p (a ++ b) = addUrls (addUrls p a) b := by
  simp [addUrls, List.foldl_append]

theorem runRequests_pending (st : State) (reqs : List (List String)) :
    (runRequests st reqs).pending = addUrls st.pending reqs.flatten := by
  induction reqs generalizing st with
  | nil => simp [runRequests, addUrls]
  | cons u us ih =>
      rw [runRequests, ih]
      simp [_schedule_background_purge, addUrls_append]

theorem runRequests_nextGen (st : State) (reqs : List (List String)) :
    (runRequests st reqs).nextGen = st.nextGen + reqs.length := by
  induction reqs generalizing st with
  | nil => simp [runRequests]
  | cons u us ih =>
      rw [runRequests, ih]
      simp [_schedule_background_purge]
      omega

theorem dedupUnion_nodup (reqs : List (List String)) : (dedupUnion reqs).Nodup :=
  nodup_addUrls List.nodup_nil

theorem mem_dedupUnion {reqs : List (List String)} {x : String} :
    x ∈ dedupUnion reqs ↔ ∃ r ∈ reqs, x ∈ r := by
  rw [dedupUnion, mem_addUrls]
  simp [List.mem_flatten]

theorem chunksF_nil (B fuel : Nat) : chunksF B fuel [] = [] := by
  cases fuel <;> rfl

theorem chunksF_fuel (B : Nat) (hB : 0 < B) :
    ∀ (f1 : Nat) (l : List String) (f2 : Nat), l.length ≤ f1 → l.length ≤ f2 →
      chunksF B f1 l = chunksF B f2 l := by
  intro f1
  induction f1 with
  | zero =>
      intro l f2 h1 _
      have : l = [] := List.eq_nil_of_length_eq_zero (Nat.le_zero.mp h1)
      subst this
      rw [chunksF_nil, chunksF_nil]
  | succ f1 ih =>
      intro l f2 h1 h2
      cases l with
      | nil => rw [chunksF_nil, chunksF_nil]
      | cons x xs =>
          cases f2 with
          | zero => simp at h2
          | succ f2 =>
              show (x :: xs).take B :: chunksF B f1 ((x :: xs).drop B)
                  = (x :: xs).take B :: chunksF B f2 ((x :: xs).drop B)
              have hlen : ((x :: xs).drop B).length ≤ f1 := by
                simp only [List.length_drop, List.length_cons] at h1 ⊢
                omega
              have hlen2 : ((x :: xs).drop B).length ≤ f2 := by
                simp only [List.length_drop, List.length_cons] at h2 ⊢
                omega
              rw [ih ((x :: xs).drop B) f2 hlen hlen2]

theorem chunks_nil (B : Nat) : chunks B [] = [] := by
  unfold chunks
  simp [chunksF_nil]

theorem chunks_cons (B : Nat) (l : List String) (hB : B ≠ 0) (hl : l ≠ []) :
    chunks B l = l.take B :: chunks B (l.drop B) := by
  have hB0 : 0 < B := Nat.pos_of_ne_zero hB
  cases l with
  | nil => exact absurd rfl hl
  | cons x xs =>
      show chunks B (x :: xs) = (x :: xs).take B :: chunks B ((x :: xs).drop B)
      unfold chunks
      simp only [if_neg hB]
      show (x :: xs).take B :: chunksF B xs.length ((x :: xs).drop B)
          = (x :: xs).take B :: chunksF B ((x :: xs).drop B).length ((x :: xs).drop B)
      rw [chunksF_fuel B hB0 xs.length ((x :: xs).drop B) ((x :: xs).drop B).length
          (by simp only [List.length_drop]; simp; omega) (Nat.le_refl _)]

theorem chunks_flatten_aux (B : Nat) (hB : 0 < B) :
    ∀ (n : Nat) (l : List String), l.length ≤ n → (chunks B l).flatten = l := by
  intro n
  induction n with
  | zero =>
      intro l hl
      have : l = [] := List.eq_nil_of_length_eq_zero (Nat.le_zero.mp hl)
      subst this
      simp [chunks_nil]
  | succ n ih =>
      intro l hl
      by_cases h : l = []
      · subst h; simp [chunks_nil]
      · rw [chunks_cons B l (Nat.pos_iff_ne_zero.mp hB) h]
        have hlen : (l.drop B).length ≤ n := by
          have h1 : 0 < l.length := List.length_pos.mpr h
          simp only [List.length_drop]
          omega
        rw [List.flatten_cons, ih (l.drop B) hlen]
        exact List.take_append_drop B l

theorem chunks_flatten (B : Nat) (hB : 0 < B) (l : List String) :
    (chunks B l).flatten = l :=
  chunks_flatten_aux B hB l.length l (Nat.le_refl _)

theorem chunks_length_aux (B : Nat) (hB : 0 < B) :
    ∀ (n : Nat) (l : List String), l.length ≤ n → l ≠ [] →
      (chunks B l).length = (l.length - 1) / B + 1 := by
  intro n
  induction n with
  | zero =>
      intro l hl hne
      exact absurd (List.eq_nil_of_length_eq_zero (Nat.le_zero.mp hl)) hne
  | succ n ih =>
      intro l hl hne
      rw [chunks_cons B l (Nat.pos_iff_ne_zero.mp hB) hne]
      have h1 : 0 < l.length := List.length_pos.mpr hne
      by_cases hd : l.drop B = []
      · have hle : l.length ≤ B := by
          have := List.length_drop B l
          rw [hd] at this
          simp at this
          omega
        have : (l.length - 1) / B = 0 := Nat.div_eq_of_lt (by omega)
        simp [hd, chunks_nil, this]
      · have hgt : B < l.length := by
          by_contra hc
          exact hd (List.drop_eq_nil_of_le (by omega))
        have hlen : (l.drop B).length ≤ n := by
          simp only [List.length_drop]
          omega
        rw [List.length_cons, ih (l.drop B) hlen hd]
        simp only [List.length_drop]
        have heq : l.length - 1 = (l.length - B - 1) + B := by omega
        rw [heq, Nat.add_div_right _ hB]

theorem chunks_length (B : Nat) (hB : 0 < B) (l : List String) :
    (chunks B l).length = (l.length + B - 1) / B := by
  by_cases h : l = []
  · subst h
    rw [chunks_nil]
    simp only [List.length_nil, List.length, Nat.zero_add]
    exact (Nat.div_eq_of_lt (by omega)).symm
  · rw [chunks_length_aux B hB l.length l (Nat.le_refl _) h]
    have h1 : 0 < l.length := List.length_pos.mpr h
    have heq : l.length + B - 1 = (l.length - 1) + B := by omega
    rw [heq, Nat.add_div_right _ hB]

theorem length_le_of_mem_chunks_aux (B : Nat) (hB : 0 < B) :
    ∀ (n : Nat) (l : List String), l.length ≤ n →
      ∀ c ∈ chunks B l, c.length ≤ B := by
  intro n
  induction n with
  | zero =>
      intro l hl c hc
      have : l = [] := List.eq_nil_of_length_eq_zero (Nat.le_zero.mp hl)
      subst this
      simp [chunks_nil] at hc
  | succ n ih =>
      intro l hl c hc
      by_cases h : l = []
      · subst h; simp [chunks_nil] at hc
      · rw [chunks_cons B l (Nat.pos_iff_ne_zero.mp hB) h] at hc
        rcases List.mem_cons.mp hc with rfl | hc
        · rw [List.length_take]
          exact Nat.min_le_left _ _
        · have h1 : 0 < l.length := List.length_pos.mpr h
          exact ih (l.drop B) (by simp only [List.length_drop]; omega) c hc

theorem length_le_of_mem_chunks (B : Nat) (hB : 0 < B) (l : List String) :
    ∀ c ∈ chunks B l, c.length ≤ B :=
  length_le_of_mem_chunks_aux B hB l.length l (Nat.le_refl _)

theorem runBatches_ok (client : BatchClient) (bs : List (List String))
    (h : ∀ b ∈ bs, (client b).isOk = true) :
    (runBatches client bs).1 = bs ∧ (runBatches client bs).2.isOk = true := by
  induction bs with
  | nil => exact ⟨rfl, rfl⟩
  | cons b bs ih =>
      have hb := h b (List.mem_cons_self b bs)
      cases hc : client b with
      | error e => rw [hc] at hb; simp [Except.isOk, Except.toBool] at hb
      | ok r =>
          obtain ⟨h1, h2⟩ := ih (fun x hx => h x (List.mem_cons_of_mem b hx))
          simp only [runBatches, hc]
          refine ⟨by rw [h1], ?_⟩
          cases hr : (runBatches client bs).2 with
          | error e2 => rw [hr] at h2; simp [Except.isOk, Except.toBool] at h2
          | ok rs => simp [Except.isOk, Except.toBool, Except.map]

theorem runBatches_error (client : BatchClient) (e : CloudflareAPIError) :
    ∀ (pre : List (List String)) (b : List String) (post : List (List String)),
      (∀ x ∈ pre, (client x).isOk = true) →
      client b = .error e →
      runBatches client (pre ++ b :: post) = (pre ++ [b], .error e) := by
  intro pre
  induction pre with
  | nil =>
      intro b post _ hb
      simp [runBatches, hb]
  | cons a pre ih =>
      intro b post hpre hb
      have ha := hpre a (List.mem_cons_self a pre)
      cases hc : client a with
      | error e2 => rw [hc] at ha; simp [Except.isOk, Except.toBool] at ha
      | ok r =>
          have hrec := ih b post (fun x hx => hpre x (List.mem_cons_of_mem a hx)) hb
          simp only [List.cons_append, runBatches, hc, List.append_eq]
          rw [hrec]
          simp [Except.map]

end PurgeService

namespace PurgeService

theorem execute_state (enum : List String → List String) (client : BatchClient)
    (B : Nat) (st : State) :
    (_execute_background_purge enum client B st).1
      = { pending := [], timer := none, nextGen := st.nextGen } := by
  unfold _execute_background_purge
  by_cases h : (enum st.pending).isEmpty <;> simp [h]

theorem execute_dispatch_of_ne_nil (enum : List String → List String)
    (client : BatchClient) (B : Nat) (st : State)
    (h : enum st.pending ≠ []) :
    (_execute_background_purge enum client B st).2.1 = [enum st.pending] := by
  unfold _execute_background_purge
  rw [if_neg]
  simp [List.isEmpty_iff, h]

end PurgeService

/-- C3: the synchronous dispatch path `PurgeService._do_purge_urls`
partitions the URL list into ceil(n/B) consecutive chunks of at most B
items each in input order, calls the client once per chunk, and on a
failing chunk call propagates that `CloudflareAPIError` immediately,
issuing no further chunk calls. -/
theorem do_purge_urls_batching
    (urls : List String) (B : Nat) (hB : 0 < B)
    (client : PurgeService.BatchClient) :
    (PurgeService.chunks B urls).flatten = urls
    ∧ (∀ c ∈ PurgeService.chunks B urls, c.length ≤ B)
    ∧ (PurgeService.chunks B urls).length = (urls.length + B - 1) / B
    ∧ ((∀ b ∈ PurgeService.chunks B urls, (client b).isOk = true) →
        (PurgeService._do_purge_urls client B urls).1 = PurgeService.chunks B urls
        ∧ (PurgeService._do_purge_urls client B urls).2.isOk = true)
    ∧ (∀ (pre : List (List String)) (b : List String) (post : List (List String))
          (e : CloudflareAPIError),
        PurgeService.chunks B urls = pre ++ b :: post →
        (∀ x ∈ pre, (client x).isOk = true) →
        client b = Except.error e →
        PurgeService._do_purge_urls client B urls = (pre ++ [b], Except.error e)) := by
  refine ⟨PurgeService.chunks_flatten B hB urls,
    PurgeService.length_le_of_mem_chunks B hB urls,
    PurgeService.chunks_length B hB urls,
    fun h => PurgeService.runBatches_ok client _ h,
    fun pre b post e hchunks hpre hb => ?_⟩
  unfold PurgeService._do_purge_urls
  rw [hchunks]
  exact PurgeService.runBatches_error client e pre b post hpre hb

/-- Witness for the C3 theorem: batch size 2 with five unique URLs gives
exactly three client calls of sizes [2, 2, 1], in input order. -/
theorem do_purge_urls_batching_witness :
    (0 : Nat) < 2
    ∧ (PurgeService.chunks 2 ["u1", "u2", "u3", "u4", "u5"]).flatten
        = ["u1", "u2", "u3", "u4", "u5"]
    ∧ (PurgeService.chunks 2 ["u1", "u2", "u3", "u4", "u5"]).length = 3
    ∧ (PurgeService._do_purge_urls okClient 2 ["u1", "u2", "u3", "u4", "u5"]).1
        = [["u1", "u2"], ["u3", "u4"], ["u5"]]
    ∧ ((PurgeService._do_purge_urls okClient 2 ["u1", "u2", "u3", "u4", "u5"]).1).map
        List.length = [2, 2, 1] := by
  have h := do_purge_urls_batching ["u1", "u2", "u3", "u4", "u5"] 2 (by decide) okClient
  have h4 := h.2.2.2.1 (by decide)
  exact ⟨by decide, h.1, h.2.2.1.trans (by decide), h4.1.trans (by decide), by decide⟩

/-- C1: for a sequence of background `purge_urls` requests inside one
debounce window, each call merges its URLs into the pending set and
cancel-and-replaces the outstanding timer with a fresh handle, and the
single timer fire dispatches exactly once, with exactly the deduplicated
union of all requested URLs (for any enumeration order of the drained
set). -/
theorem background_window_single_dispatch
    (reqs : List (List String)) (enum : List String → List String)
    (henum : PurgeService.enumValid enum)
    (client : PurgeService.BatchClient) (B : Nat)
    (hne : reqs.flatten ≠ []) :
    (∀ (st : PurgeService.State) (urls : List String), PurgeService.timerInv st →
        (PurgeService._schedule_background_purge st urls).timer = some st.nextGen
        ∧ (PurgeService._schedule_background_purge st urls).timer ≠ st.timer
        ∧ PurgeService.timerInv (PurgeService._schedule_background_purge st urls))
    ∧ (PurgeService._execute_background_purge enum client B
          (PurgeService.runRequests PurgeService.initState reqs)).2.1
        = [enum (PurgeService.dedupUnion reqs)]
    ∧ List.Perm (enum (PurgeService.dedupUnion reqs)) (PurgeService.dedupUnion reqs)
    ∧ (enum (PurgeService.dedupUnion reqs)).Nodup
    ∧ (∀ x, x ∈ enum (PurgeService.dedupUnion reqs) ↔ ∃ r ∈ reqs, x ∈ r) := by
  have hperm := henum (PurgeService.dedupUnion reqs)
  have hpend : (PurgeService.runRequests PurgeService.initState reqs).pending
      = PurgeService.dedupUnion reqs := by
    rw [PurgeService.runRequests_pending]
    rfl
  have hdne : PurgeService.dedupUnion reqs ≠ [] := by
    obtain ⟨x, hx⟩ := List.exists_mem_of_ne_nil _ hne
    intro hcon
    have hmem : x ∈ PurgeService.dedupUnion reqs :=
      PurgeService.mem_addUrls.mpr (Or.inr hx)
    rw [hcon] at hmem
    exact absurd hmem (List.not_mem_nil x)
  have hene : enum (PurgeService.dedupUnion reqs) ≠ [] := by
    intro hcon
    rw [hcon] at hperm
    exact hdne hperm.nil_eq.symm
  refine ⟨?_, ?_, hperm, hperm.nodup_iff.mpr (PurgeService.dedupUnion_nodup reqs),
      fun x => Iff.trans hperm.mem_iff PurgeService.mem_dedupUnion⟩
  · intro st urls hinv
    refine ⟨rfl, ?_, ?_⟩
    · cases ht : st.timer with
      | none => simp [PurgeService._schedule_background_purge]
      | some g =>
          have := hinv g ht
          simp [PurgeService._schedule_background_purge]
          omega
    · intro g hg
      simp only [PurgeService._schedule_background_purge, Option.some.injEq] at hg ⊢
      omega
  · rw [PurgeService.execute_dispatch_of_ne_nil, hpend]
    rw [hpend]
    exact hene

/-- Witness for the C1 theorem: requesting `{"/a"}` then `{"/a","/b"}`
within one window (identity enumeration) yields exactly one dispatch,
of exactly the two deduplicated URLs. -/
theorem background_window_single_dispatch_witness :
    PurgeService.enumValid id
    ∧ ([["/a"], ["/a", "/b"]] : List (List String)).flatten ≠ []
    ∧ (PurgeService._execute_background_purge id okClient 30
          (PurgeService.runRequests PurgeService.initState [["/a"], ["/a", "/b"]])).2.1
        = [["/a", "/b"]]
    ∧ (["/a", "/b"] : List String).length = 2 := by
  have hid : PurgeService.enumValid id := fun l => List.Perm.refl l
  have h := background_window_single_dispatch [["/a"], ["/a", "/b"]] id hid okClient 30
    (by decide)
  exact ⟨hid, by decide, h.2.1.trans (by decide), by decide⟩

/-- C2: the timer-fired drain clears the pending set and the timer handle
before dispatching, its final state is independent of the dispatch
outcome (a failing dispatch is swallowed, the failed URLs are not
re-queued), and an independent synchronous `purge_urls` with a working
client afterwards succeeds. -/
theorem background_drain_failure_isolated
    (st : PurgeService.State) (enum : List String → List String)
    (client client2 goodClient : PurgeService.BatchClient) (B : Nat)
    (urls2 : List String)
    (hgood : ∀ b, (goodClient b).isOk = true) :
    (PurgeService._execute_background_purge enum client B st).1.pending = []
    ∧ (PurgeService._execute_background_purge enum client B st).1.timer = none
    ∧ (PurgeService._execute_background_purge enum client B st).1
        = (PurgeService._execute_background_purge enum client2 B st).1
    ∧ (PurgeService.purge_urls false goodClient B
          (PurgeService._execute_background_purge enum client B st).1 urls2).2
        = some (PurgeService._do_purge_urls goodClient B urls2)
    ∧ (PurgeService._do_purge_urls goodClient B urls2).2.isOk = true := by
  rw [PurgeService.execute_state, PurgeService.execute_state]
  exact ⟨rfl, rfl, rfl, rfl,
    (PurgeService.runBatches_ok goodClient _ (fun b _ => hgood b)).2⟩

/-- Witness for the C2 theorem: after a drain whose dispatch fails with a
transport error, the state is idle and a fresh synchronous purge through
a working client succeeds. -/
theorem background_drain_failure_isolated_witness :
    (∀ b, (okClient b).isOk = true)
    ∧ (PurgeService._execute_background_purge id failClient 30
          ⟨["/a"], some 0, 1⟩).1.pending = []
    ∧ (PurgeService._execute_background_purge id failClient 30
          ⟨["/a"], some 0, 1⟩).1.timer = none
    ∧ (PurgeService._do_purge_urls okClient 30 ["/c"]).2.isOk = true := by
  have hgood : ∀ b, (okClient b).isOk = true := fun b => rfl
  have h := background_drain_failure_isolated ⟨["/a"], some 0, 1⟩ id
    failClient okClient okClient 30 ["/c"] hgood
  exact ⟨hgood, h.1, h.2.1, h.2.2.2.2⟩

/-- C4 (counterexample): the drained snapshot is `list(set)` over a Python
set, so the reverse enumeration is as legitimate as any other; after
requesting "/a" and then "/b" in one window, the drain under it dispatches
`["/b", "/a"]`, which is not the insertion-order slice `["/a", "/b"]` —
the dispatch order is therefore not determined by insertion order. -/
theorem drain_not_insertion_ordered :
    PurgeService.enumValid List.reverse
    ∧ (PurgeService.runRequests PurgeService.initState [["/a"], ["/b"]]).pending
        = ["/a", "/b"]
    ∧ (PurgeService._execute_background_purge List.reverse okClient 30
          (PurgeService.runRequests PurgeService.initState [["/a"], ["/b"]])).2.1
        = [["/b", "/a"]]
    ∧ [["/b", "/a"]] ≠ ([["/a", "/b"]] : List (List String)) :=
  ⟨fun l => l.reverse_perm, by decide, by decide, by decide⟩

/-- C4 (amended): every batch dispatched by a timer-fired drain is a
consecutive slice, of length at most B, of some enumeration of the
drained pending set, and the batches jointly list each drained URL
exactly once (their concatenation is a permutation of the pending set);
the enumeration order is that of Python's unordered set iteration and is
not guaranteed to be insertion order. -/
theorem drain_batches_cover_pending
    (st : PurgeService.State) (enum : List String → List String)
    (client : PurgeService.BatchClient) (B : Nat)
    (henum : PurgeService.enumValid enum) (hB : 0 < B)
    (hok : ∀ b, (client b).isOk = true) :
    (PurgeService._do_purge_urls client B (enum st.pending)).1
        = PurgeService.chunks B (enum st.pending)
    ∧ List.Perm ((PurgeService._do_purge_urls client B (enum st.pending)).1).flatten
        st.pending
    ∧ (∀ c ∈ (PurgeService._do_purge_urls client B (enum st.pending)).1,
        c.length ≤ B) := by
  have htr : (PurgeService._do_purge_urls client B (enum st.pending)).1
      = PurgeService.chunks B (enum st.pending) :=
    (PurgeService.runBatches_ok client _ (fun b _ => hok b)).1
  refine ⟨htr, ?_, ?_⟩
  · rw [htr, PurgeService.chunks_flatten B hB]
    exact henum st.pending
  · rw [htr]
    exact PurgeService.length_le_of_mem_chunks B hB (enum st.pending)

/-- Witness for the amended C4 theorem: a three-URL pending set drained
with batch size 2 under the identity enumeration gives batches
[2 URLs, 1 URL] covering the pending set exactly. -/
theorem drain_batches_cover_pending_witness :
    PurgeService.enumValid id ∧ (0 : Nat) < 2 ∧ (∀ b, (okClient b).isOk = true)
    ∧ (PurgeService._do_purge_urls okClient 2
          (id (["/a", "/b", "/c"] : List String))).1
        = [["/a", "/b"], ["/c"]] := by
  have hid : PurgeService.enumValid id := fun l => List.Perm.refl l
  have hok : ∀ b, (okClient b).isOk = true := fun b => rfl
  have h := drain_batches_cover_pending ⟨["/a", "/b", "/c"], none, 0⟩ id okClient 2
    hid (by decide) hok
  exact ⟨hid, by decide, hok, h.1.trans (by decide)⟩

/-- C6 (counterexample): a background `purge_urls` call with an empty URL
list is not a timer no-op: on a state whose timer handle is `some 0`, it
cancels that timer and arms a fresh one (`some 1`). -/
theorem empty_request_rearms_timer :
    (PurgeService.purge_urls true okClient 30 ⟨["/x"], some 0, 1⟩ []).1.timer = some 1
    ∧ ((⟨["/x"], some 0, 1⟩ : PurgeService.State)).timer = some 0
    ∧ some 1 ≠ (some 0 : Option Nat) := by
  exact ⟨rfl, rfl, by decide⟩

/-- C6 (amended): an empty URL list never changes the pending set and
never causes a dispatch — synchronously it issues zero client calls and
returns the empty aggregate, and a timer firing over an empty pending
set dispatches nothing — but in background mode the call still
cancel-and-replaces the debounce timer rather than being a no-op. -/
theorem purge_urls_empty_amended
    (client : PurgeService.BatchClient) (B : Nat) (st : PurgeService.State)
    (enum : List String → List String) (henum : PurgeService.enumValid enum) :
    (PurgeService.purge_urls false client B st []).1 = st
    ∧ (PurgeService.purge_urls false client B st []).2
        = some ([], Except.ok [])
    ∧ (PurgeService.purge_urls true client B st []).1.pending = st.pending
    ∧ (PurgeService.purge_urls true client B st []).1.timer = some st.nextGen
    ∧ (st.pending = [] →
        (PurgeService._execute_background_purge enum client B st).2.1 = []) := by
  refine ⟨rfl, ?_, rfl, rfl, ?_⟩
  · show some (PurgeService._do_purge_urls client B []) = some ([], Except.ok [])
    rw [PurgeService._do_purge_urls, PurgeService.chunks_nil]
    rfl
  · intro hp
    have hperm := henum st.pending
    rw [hp] at hperm
    have hnil : enum st.pending = [] := by
      rw [hp]
      exact hperm.eq_nil
    unfold PurgeService._execute_background_purge
    rw [if_pos]
    rw [hp] at hnil ⊢
    simp [hnil]

/-- Witness for the amended C6 theorem at a concrete armed state: the
synchronous empty call is a strict no-op, the background empty call
keeps the pending set but rearms the timer, and a fire over an empty
pending set dispatches nothing. -/
theorem purge_urls_empty_amended_witness :
    PurgeService.enumValid id
    ∧ (PurgeService.purge_urls false okClient 30 ⟨["/x"], some 0, 1⟩ []).1
        = ⟨["/x"], some 0, 1⟩
    ∧ (PurgeService.purge_urls true okClient 30 ⟨["/x"], some 0, 1⟩ []).1.pending
        = ["/x"]
    ∧ (PurgeService._execute_background_purge id okClient 30 ⟨[], some 0, 1⟩).2.1
        = [] := by
  have hid : PurgeService.enumValid id := fun l => List.Perm.refl l
  have h1 := purge_urls_empty_amended okClient 30 ⟨["/x"], some 0, 1⟩ id hid
  have h2 := purge_urls_empty_amended okClient 30 ⟨[], some 0, 1⟩ id hid
  exact ⟨hid, h1.1, h1.2.2.1, h2.2.2.2.2 rfl⟩

/-- C5 (counterexample): `verify_token` ignores the ENABLED flag — with
the flag false it still issues the GET request and returns the live
outcome rather than the "disabled" sentinel. -/
theorem verify_token_ignores_disabled :
    (CloudflareClient.verify_token ⟨false, "z1"⟩ liveNet).1
        = some ⟨"GET", "/user/tokens/verify", none⟩
    ∧ (CloudflareClient.verify_token ⟨false, "z1"⟩ liveNet).2
        = Except.ok ⟨true, some "live", []⟩
    ∧ some (⟨"GET", "/user/tokens/verify", none⟩ : ApiRequest) ≠ none
    ∧ (⟨true, some "live", []⟩ : RespObj).resultId ≠ some "disabled" :=
  ⟨rfl, rfl, by decide, by decide⟩

/-- C5 (amended): when the ENABLED flag is false, the four purge
operations make no network request and return the synthetic success
carrying the sentinel identifier "disabled" — but `verify_token` has no
disabled check and issues its request regardless of the flag. -/
theorem disabled_short_circuit
    (cfg : CloudflareClient.Config) (net : CloudflareClient.Net)
    (urls tags prefixes : List String) (hdis : cfg.enabled = false) :
    CloudflareClient.purge_everything cfg net
        = (none, Except.ok CloudflareClient.disabledResp)
    ∧ CloudflareClient.purge_urls cfg net urls
        = (none, Except.ok CloudflareClient.disabledResp)
    ∧ CloudflareClient.purge_tags cfg net tags
        = (none, Except.ok CloudflareClient.disabledResp)
    ∧ CloudflareClient.purge_prefixes cfg net prefixes
        = (none, Except.ok CloudflareClient.disabledResp)
    ∧ CloudflareClient.disabledResp.resultId = some "disabled"
    ∧ (CloudflareClient.verify_token cfg net).1
        = some ⟨"GET", "/user/tokens/verify", none⟩ := by
  refine ⟨?_, ?_, ?_, ?_, rfl, rfl⟩
  · simp [CloudflareClient.purge_everything, hdis]
  · simp [CloudflareClient.purge_urls, hdis]
  · simp [CloudflareClient.purge_tags, hdis]
  · simp [CloudflareClient.purge_prefixes, hdis]

/-- Witness for the amended C5 theorem with the flag off: the URL purge
returns the disabled sentinel with no request issued. -/
theorem disabled_short_circuit_witness :
    (⟨false, "z1"⟩ : CloudflareClient.Config).enabled = false
    ∧ CloudflareClient.purge_urls ⟨false, "z1"⟩ liveNet ["https://e.com/"]
        = (none, Except.ok CloudflareClient.disabledResp)
    ∧ CloudflareClient.purge_everything ⟨false, "z1"⟩ liveNet
        = (none, Except.ok CloudflareClient.disabledResp) := by
  have h := disabled_short_circuit ⟨false, "z1"⟩ liveNet ["https://e.com/"] [] [] rfl
  exact ⟨rfl, h.2.1, h.1⟩

/-- C7 (counterexample): called with 31 URLs — beyond the provider's
documented 30-item cap — the client raises no invalid-input error and
does not truncate: it sends the full 31-element list as the request's
files payload and returns the network outcome. -/
theorem over_limit_batch_sent_unchanged :
    30 < urls31.length
    ∧ (CloudflareClient.purge_urls ⟨true, "z1"⟩ liveNet urls31).1
        = some ⟨"POST", "/zones/z1/purge_cache", some (.files urls31)⟩
    ∧ (CloudflareClient.purge_urls ⟨true, "z1"⟩ liveNet urls31).2
        = Except.ok ⟨true, some "live", []⟩ :=
  ⟨by decide, rfl, rfl⟩

/-- C7 (amended): the client performs no per-request size validation at
all — with the feature enabled, `purge_urls` on any non-empty list
(of any length, including above the documented 30-item cap) issues
exactly one request whose files payload is the input list verbatim,
and returns whatever the network answered. -/
theorem purge_urls_no_limit_check
    (cfg : CloudflareClient.Config) (net : CloudflareClient.Net)
    (urls : List String) (hen : cfg.enabled = true) (hne : urls ≠ []) :
    CloudflareClient.purge_urls cfg net urls
      = (some ⟨"POST", "/zones/" ++ cfg.zoneId ++ "/purge_cache", some (.files urls)⟩,
         net ⟨"POST", "/zones/" ++ cfg.zoneId ++ "/purge_cache", some (.files urls)⟩) := by
  simp [CloudflareClient.purge_urls, hen, List.isEmpty_iff, hne]

/-- Witness for the amended C7 theorem at the 31-URL input. -/
theorem purge_urls_no_limit_check_witness :
    (⟨true, "z1"⟩ : CloudflareClient.Config).enabled = true
    ∧ urls31 ≠ []
    ∧ CloudflareClient.purge_urls ⟨true, "z1"⟩ liveNet urls31
        = (some ⟨"POST", "/zones/z1/purge_cache", some (.files urls31)⟩,
           liveNet ⟨"POST", "/zones/z1/purge_cache", some (.files urls31)⟩) := by
  have h := purge_urls_no_limit_check ⟨true, "z1"⟩ liveNet urls31 rfl (by decide)
  exact ⟨rfl, by decide, h⟩

/-- C8 (counterexample): when the error response body is not valid JSON,
the raised `CloudflareAPIError` carries an EMPTY error list (the
constructor default `errors or []`), not a synthetic one-element list;
the raw body survives only inside the message string. -/
theorem non_json_error_body_empty_errors :
    CloudflareClient._make_request (.httpError (.notJson "<html>502</html>"))
      = .error (.apiError ⟨"Cloudflare API error: <html>502</html>", []⟩)
    ∧ (⟨"Cloudflare API error: <html>502</html>", []⟩ : CloudflareAPIError).errors.length
        = 0
    ∧ (0 : Nat) ≠ 1 :=
  ⟨rfl, rfl, by decide⟩

/-- C8 (amended): every transport-level failure and every decoded
`success: false` response raises `CloudflareAPIError`; a decoded error
body carries the decoded provider error list, with the provider messages
joined into the error message (so a provider message such as
"Invalid zone identifier" appears there); a non-JSON error body and a
pure transport failure carry an empty error list, with the raw body or
the failure reason embedded in the message instead. -/
theorem make_request_error_surfacing
    (j : RespObj) (raw reason : String) (hfail : j.success = false) :
    CloudflareClient._make_request (.response (.jsonBody j))
      = .error (.apiError ⟨CloudflareClient.errMsg j.errors, j.errors⟩)
    ∧ CloudflareClient._make_request (.httpError (.jsonBody j))
      = .error (.apiError ⟨CloudflareClient.errMsg j.errors, j.errors⟩)
    ∧ CloudflareClient._make_request (.httpError (.notJson raw))
      = .error (.apiError ⟨"Cloudflare API error: " ++ raw, []⟩)
    ∧ CloudflareClient._make_request (.urlError reason)
      = .error (.apiError ⟨"Network error: " ++ reason, []⟩)
    ∧ CloudflareClient.errMsg [⟨1001, "Invalid zone identifier"⟩]
      = "Cloudflare API error: Invalid zone identifier" := by
  refine ⟨?_, rfl, rfl, rfl, by decide⟩
  simp [CloudflareClient._make_request, hfail]

/-- Witness for the amended C8 theorem at the spec's example response
`success: false` with error 1001 "Invalid zone identifier". -/
theorem make_request_error_surfacing_witness :
    (⟨false, none, [⟨1001, "Invalid zone identifier"⟩]⟩ : RespObj).success = false
    ∧ CloudflareClient._make_request
        (.response (.jsonBody ⟨false, none, [⟨1001, "Invalid zone identifier"⟩]⟩))
      = .error (.apiError ⟨"Cloudflare API error: Invalid zone identifier",
          [⟨1001, "Invalid zone identifier"⟩]⟩) := by
  have h := make_request_error_surfacing ⟨false, none, [⟨1001, "Invalid zone identifier"⟩]⟩
    "x" "x" rfl
  refine ⟨rfl, h.1.trans ?_⟩
  rw [h.2.2.2.2]

/-- C9 (counterexample): a failing caller-supplied `get_url_func` is not
caught by `purge_model` — the error propagates out and the configured
dependency URL "/dep/" is never handed to a purge — whereas the same
failure in `get_absolute_url` is contained and the dependency URL is
still purged. -/
theorem get_url_func_failure_aborts :
    PurgeService.purge_model (some (.error "boom")) none true ["/dep/"] ""
      = .error "boom"
    ∧ PurgeService.purge_model none (some (.error "boom")) true ["/dep/"] ""
      = .ok (some ["/dep/"]) :=
  ⟨rfl, rfl⟩

/-- C9 (amended): a `get_absolute_url` failure is logged and treated as
"no URL for this entity" — the dependency URLs are still purged; a
failure of a caller-supplied `get_url_func`, by contrast, propagates out
of `purge_model` and aborts dependency purging, and is only contained by
the signal handler's blanket `except Exception`, which logs it and never
re-raises to the change-event source. -/
theorem resolver_failure_containment
    (e : String) (deps : List String) (siteUrl : String)
    (ufRes : PurgeService.ResolverResult (List String))
    (absRes : PurgeService.ResolverResult String)
    (incDeps : Bool) (hne : deps ≠ []) :
    PurgeService.purge_model none (some (.error e)) true deps siteUrl
      = .ok (some (deps.map (PurgeService._build_full_url siteUrl)))
    ∧ PurgeService.purge_model (some (.error e)) absRes incDeps deps siteUrl
      = .error e
    ∧ Signals._purge_instance ufRes absRes incDeps deps siteUrl = .ok () := by
  refine ⟨?_, rfl, ?_⟩
  · have hmapne : deps.map (PurgeService._build_full_url siteUrl) ≠ [] := by
      intro hcon
      exact hne (List.map_eq_nil_iff.mp hcon)
    simp [PurgeService.purge_model, PurgeService.purge_model_urls,
      List.isEmpty_iff, hmapne]
  · unfold Signals._purge_instance
    cases PurgeService.purge_model ufRes absRes incDeps deps siteUrl <;> rfl

/-- Witness for the amended C9 theorem at concrete inputs: an aborted
`get_absolute_url` still purges the site-prefixed dependency URL, a
failing `get_url_func` propagates, and the signal handler swallows it. -/
theorem resolver_failure_containment_witness :
    (["/dep/"] : List String) ≠ []
    ∧ PurgeService.purge_model none (some (.error "boom")) true ["/dep/"] "https://x.com"
        = .ok (some ["https://x.com/dep/"])
    ∧ PurgeService.purge_model (some (.error "boom")) none true ["/dep/"] "https://x.com"
        = .error "boom"
    ∧ Signals._purge_instance (some (.error "boom")) none true ["/dep/"] "https://x.com"
        = .ok () := by
  have h := resolver_failure_containment "boom" ["/dep/"] "https://x.com"
    (some (.error "boom")) none true (by decide)
  exact ⟨by decide, h.1.trans rfl, h.2.1, h.2.2⟩

/-- C10: URLs from a caller-supplied `get_url_func` are forwarded
verbatim, while the `get_absolute_url` result and every configured
dependency path are passed through `_build_full_url`, which prefixes the
SITE_URL setting with its trailing slashes stripped — and forwards the
path unchanged when the stripped SITE_URL is empty (in particular when
SITE_URL is the empty string). -/
theorem purge_model_url_construction
    (us : List String) (u p siteUrl : String) (deps : List String)
    (absRes : PurgeService.ResolverResult String)
    (hs : PurgeService.rstripSlash siteUrl ≠ "") :
    PurgeService.purge_model_urls (some (.ok us)) absRes true deps siteUrl
      = .ok (us ++ deps.map (PurgeService._build_full_url siteUrl))
    ∧ PurgeService.purge_model_urls none (some (.ok u)) true deps siteUrl
      = .ok (PurgeService._build_full_url siteUrl u
          :: deps.map (PurgeService._build_full_url siteUrl))
    ∧ PurgeService._build_full_url siteUrl p = PurgeService.rstripSlash siteUrl ++ p
    ∧ PurgeService._build_full_url "" p = p := by
  refine ⟨rfl, rfl, ?_, rfl⟩
  unfold PurgeService._build_full_url
  rw [if_neg hs]

/-- Witness for the C10 theorem with SITE_URL "https://x.com/": the
custom-resolver URL passes through untouched while the absolute URL and
the dependency path get the stripped prefix. -/
theorem purge_model_url_construction_witness :
    PurgeService.rstripSlash "https://x.com/" ≠ ""
    ∧ PurgeService.purge_model_urls (some (.ok ["https://cdn.org/raw"])) none true
        ["/blog/"] "https://x.com/"
      = .ok ["https://cdn.org/raw", "https://x.com/blog/"]
    ∧ PurgeService.purge_model_urls none (some (.ok "/blog/p1/")) true
        ["/blog/"] "https://x.com/"
      = .ok ["https://x.com/blog/p1/", "https://x.com/blog/"]
    ∧ PurgeService._build_full_url "https://x.com/" "/a/"
        = PurgeService.rstripSlash "https://x.com/" ++ "/a/"
    ∧ PurgeService._build_full_url "" "/a/" = "/a/" := by
  have h := purge_model_url_construction ["https://cdn.org/raw"] "/blog/p1/" "/a/"
    "https://x.com/" ["/blog/"] none (by decide)
  exact ⟨by decide, h.1.trans rfl, h.2.1.trans rfl, h.2.2.1, h.2.2.2⟩
